import Mathlib

/-!
Shallow embedding of the MMAPv1 durability (journaling) engine of
`src/mongo/db/storage/mmap_v1/dur.cpp`: the group-commit coordinator
(`_groupCommitWithLimitedLocks`, `_groupCommit`), the private-view remap
sweep (`_REMAPPRIVATEVIEW`), the forced-commit entry point
(`DurableImpl::commitIfNeeded` / `_aCommitIsNeeded`), the background thread
(`durThreadGroupCommit`, `durThread`) and the durability on/off switch
(`DurableInterface::enableDurability` / `disableDurability`).

Sequential C++ code is translated into explicit state passing; calls that
may throw C++ exceptions are modelled with `Except`; the observable calls of
a commit cycle (journal write, data-file write, notification, reset, remap)
are recorded as an event trace so that ordering claims can be stated.
-/

deriving instance DecidableEq for Except

namespace Dur

/-- Lock state characters returned by `LockState::threadState()`:
`'\0'` (unlocked), `'r'`, `'w'`, `'R'`, `'W'`. -/
inductive TS
  | none
  | r
  | w
  | R
  | W
deriving DecidableEq, Repr

/-- `LockState::isLocked()`: any lock char other than `'\0'`. -/
def isLocked : TS → Bool
  | TS.none => false
  | _ => true

/-- `LockState::isW()`: exclusive global write lock. -/
def isW : TS → Bool
  | TS.W => true
  | _ => false

/-- `LockState::isLockedForCommitting()`: the thread is in `'R'` or `'W'`
(the comment in `_groupCommit` reads: we are `'R'` or `'W'`). -/
def isLockedForCommitting : TS → Bool
  | TS.R => true
  | TS.W => true
  | _ => false

/-- The kinds of C++ exceptions the commit-cycle wrappers in dur.cpp catch:
`DBException` (which carries an assertion code, e.g. from `massert`/`verify`),
`std::ios_base::failure`, `std::bad_alloc` and `std::exception`. -/
inductive ExcKind
  | dbException (code : Nat)
  | iosFailure
  | badAlloc
  | stdException
deriving DecidableEq, Repr

/-- `invariant(...)` checks in dur.cpp; a failed `invariant` aborts the
process immediately (it is not a catchable exception). -/
inductive AssertId
  | llAlreadyLocked
  | gcNotLockedForCommitting
  | remapNotW
  | remapHasWritten
deriving DecidableEq, Repr

/-- A failure inside a commit cycle: either a thrown C++ exception or a
fatal `invariant` failure. -/
inductive Failure
  | exc (e : ExcKind)
  | fatalAssert (a : AssertId)
deriving DecidableEq, Repr

/-- The three phase primitives of a commit cycle that perform I/O or large
allocation and hence may throw. -/
inductive Prim
  | prepLogBuffer
  | writeToJournal
  | writeToDataFiles
deriving DecidableEq, Repr

/-- An environment choice of which primitive (if any) throws which
exception during a given cycle. -/
def Oracle := Prim → Option ExcKind

/-- The run in which no primitive throws. -/
def benign : Oracle := fun _ => Option.none

/-- Run a possibly-throwing primitive, then continue with `k`. -/
def throwOr {α : Type} (oracle : Oracle) (p : Prim) (k : Except Failure α) :
    Except Failure α :=
  match oracle p with
  | Option.some e => Except.error (Failure.exc e)
  | Option.none => k

/-- Observable events of a commit cycle, in the order the corresponding
calls appear in dur.cpp. -/
inductive Ev
  | commitingBegin
  | prepLogBuffer
  | committingReset
  | releaseGlobalRead
  | writeToJournal
  | notifyCommitted
  | writeToDataFiles
  | upgradeToW
  | remapPrivateView
deriving DecidableEq, Repr

/-- The mutable state visible to dur.cpp: the calling thread's lock state,
the `CommitJob` fields (`hasWritten`, buffered `bytes`, commit epoch and the
epoch up to which waiters have been notified), the shared `AlignedBuilder`
length, the `privateMapBytes` counter, the mapped-file registry size, and
the function-local statics of `_REMAPPRIVATEVIEW` (`startAt`, `lastRemap`)
plus the `stats.curr->_commitsInWriteLock` counter. -/
structure St where
  lock : TS
  hasWritten : Bool
  bytes : Nat
  commitEpoch : Nat
  notifiedEpoch : Nat
  builderLen : Nat
  privateMapBytes : Nat
  nFiles : Nat
  startAt : Nat
  lastRemap : Nat
  commitsInWriteLock : Nat
deriving DecidableEq, Repr

/-- Modelled from the spec: `CommitJob::commitingBegin` lives in
dur_commitjob.cpp, which is not in the excerpt; per the spec (§4.1, §3
Commit Epoch) it increments the commit epoch and marks a generation
boundary. -/
def commitingBegin (st : St) : St :=
  { st with commitEpoch := st.commitEpoch + 1 }

/-- Modelled from the spec: `CommitJob::committingReset` (dur_commitjob.cpp,
not in the excerpt) clears the intent buffer, so afterwards no intents are
buffered and the byte count is zero. -/
def committingReset (st : St) : St :=
  { st with hasWritten := false, bytes := 0 }

/-- Modelled from the spec: `CommitJob::committingNotifyCommitted`
(dur_commitjob.cpp, not in the excerpt) wakes every thread waiting for a
commit number below the current epoch; we record the epoch up to which
waiters have been satisfied. -/
def committingNotifyCommitted (st : St) : St :=
  { st with notifiedEpoch := st.commitEpoch }

/-- Modelled from the spec: the forced-commit byte budget
`UncommittedBytesLimit` is declared in dur.h, which is not in the excerpt;
the claims depend only on comparisons against it, not on its exact value
(this is the 64-bit value, 100 MB). -/
def UncommittedBytesLimit : Nat := 100 * 1024 * 1024

/-- The body of `_REMAPPRIVATEVIEW` after its two assertions; it performs
no fallible call. The fraction of mapped files to sweep comes from the
elapsed time since the last remap (target: all files every 2 seconds;
forced to 1 under `DurAlwaysRemap`); with no mapped files it returns early
(leaving `privateMapBytes` untouched); otherwise it boosts the fraction by
`privateMapBytes / UncommittedBytesLimit`, zeroes `privateMapBytes`, and
advances the rotating start index by the clamped number of files to
process. The C++ `double` fractions are represented exactly as
numerator/denominator pairs of naturals (comparison by cross
multiplication, truncation to unsigned by natural division). `now` is the
current time in microseconds. -/
def remapBody (now : Nat) (alwaysRemap : Bool) (st : St) : St :=
  let fracNum : Nat := if alwaysRemap then 1 else now - st.lastRemap
  let fracDen : Nat := if alwaysRemap then 1 else 2000000
  let st1 : St := { st with lastRemap := now }
  let sz := st1.nFiles
  if sz = 0 then st1
  else
    let useF : Bool := decide (fracNum * UncommittedBytesLimit < st1.privateMapBytes * fracDen)
    let num : Nat := if useF then st1.privateMapBytes else fracNum
    let den : Nat := if useF then UncommittedBytesLimit else fracDen
    let st2 : St := { st1 with privateMapBytes := 0 }
    let ntodoRaw : Nat := sz * num / den
    let ntodo : Nat := if ntodoRaw < 1 then 1 else if sz < ntodoRaw then sz else ntodoRaw
    { st2 with startAt := (st2.startAt + ntodo) % sz }

/-- `_REMAPPRIVATEVIEW` (dur.cpp): asserts `isW` and `!hasWritten`
(`invariant`), then runs the sweep body. -/
def _REMAPPRIVATEVIEW (now : Nat) (alwaysRemap : Bool) (st : St) :
    Except Failure (List Ev × St) :=
  if isW st.lock = false then Except.error (Failure.fatalAssert AssertId.remapNotW)
  else if st.hasWritten then Except.error (Failure.fatalAssert AssertId.remapHasWritten)
  else Except.ok ([Ev.remapPrivateView], remapBody now alwaysRemap st)

/-- `_groupCommitWithLimitedLocks` (dur.cpp): asserts the caller is
unlocked, takes `Lock::GlobalRead` and the group-commit mutex, begins the
commit; if nothing is buffered it notifies and returns true; otherwise it
prepares the log buffer, resets the commit job (a `DEV verify` re-checks
`!hasWritten`), releases the global read lock, writes the journal (verifying
the builder was untouched), notifies waiters, writes the data files
(verifying again) and resets the builder. -/
def _groupCommitWithLimitedLocks (oracle : Oracle) (st : St) :
    Except Failure (List Ev × St × Bool) :=
  if isLocked st.lock then Except.error (Failure.fatalAssert AssertId.llAlreadyLocked)
  else
    let st1 : St := { st with lock := TS.R }
    let st2 := commitingBegin st1
    if st2.hasWritten = false then
      let st3 := committingNotifyCommitted st2
      Except.ok ([Ev.commitingBegin, Ev.notifyCommitted], ({ st3 with lock := TS.none }, true))
    else
      throwOr oracle Prim.prepLogBuffer <|
      let st3 : St := { st2 with builderLen := st2.bytes }
      let abLen := st3.builderLen
      let st4 := committingReset st3
      if st4.hasWritten then Except.error (Failure.exc (ExcKind.dbException 0))
      else
        let st5 : St := { st4 with lock := TS.none }
        throwOr oracle Prim.writeToJournal <|
        if st5.builderLen ≠ abLen then Except.error (Failure.exc (ExcKind.dbException 0))
        else
          let st6 := committingNotifyCommitted st5
          throwOr oracle Prim.writeToDataFiles <|
          if st6.builderLen ≠ abLen then Except.error (Failure.exc (ExcKind.dbException 0))
          else
            let st7 : St := { st6 with builderLen := 0 }
            Except.ok ([Ev.commitingBegin, Ev.prepLogBuffer, Ev.committingReset,
                        Ev.releaseGlobalRead, Ev.writeToJournal, Ev.notifyCommitted,
                        Ev.writeToDataFiles], (st7, true))

/-- The block of `_groupCommit` under the group-commit mutex: begin was
already performed by the caller; if nothing is buffered, notify; otherwise
prepare the log buffer, write the journal, notify waiters, write the data
files, then reset the commit job and the builder. -/
def _groupCommitMain (oracle : Oracle) (st2 : St) : Except Failure (List Ev × St) :=
  if st2.hasWritten = false then
    Except.ok ([Ev.commitingBegin, Ev.notifyCommitted], committingNotifyCommitted st2)
  else
    throwOr oracle Prim.prepLogBuffer <|
    let st3 : St := { st2 with builderLen := st2.bytes }
    throwOr oracle Prim.writeToJournal <|
    let st4 := committingNotifyCommitted st3
    throwOr oracle Prim.writeToDataFiles <|
    let st5 := committingReset st4
    let st6 : St := { st5 with builderLen := 0 }
    Except.ok ([Ev.commitingBegin, Ev.prepLogBuffer, Ev.writeToJournal, Ev.notifyCommitted,
                Ev.writeToDataFiles, Ev.committingReset], st6)

/-- `_groupCommit` (dur.cpp): asserts `isLockedForCommitting`, runs the
mutex-protected block, then (`DEV verify(!hasWritten)`) decides about the
remap: if not in `'W'` and `lgw` is set (durThread only), upgrade to `'W'`
and remap; if not in `'W'` and `lgw` is null, skip the remap; if already in
`'W'`, count a commit-in-write-lock and remap inline. -/
def _groupCommit (oracle : Oracle) (now : Nat) (alwaysRemap : Bool) (lgw : Bool) (st : St) :
    Except Failure (List Ev × St) :=
  if isLockedForCommitting st.lock = false then
    Except.error (Failure.fatalAssert AssertId.gcNotLockedForCommitting)
  else
    match _groupCommitMain oracle (commitingBegin st) with
    | Except.error f => Except.error f
    | Except.ok (tr, stm) =>
      if stm.hasWritten then Except.error (Failure.exc (ExcKind.dbException 0))
      else if isW stm.lock = false then
        if lgw then
          match _REMAPPRIVATEVIEW now alwaysRemap { stm with lock := TS.W } with
          | Except.error f => Except.error f
          | Except.ok (tr2, str) => Except.ok (tr ++ Ev.upgradeToW :: tr2, str)
        else Except.ok (tr, stm)
      else
        match _REMAPPRIVATEVIEW now alwaysRemap
            { stm with commitsInWriteLock := stm.commitsInWriteLock + 1 } with
        | Except.error f => Except.error f
        | Except.ok (tr2, str) => Except.ok (tr ++ tr2, str)

/-- Outcome of an outer wrapper (`groupCommit`,
`groupCommitWithLimitedLocks`): normal return, process abort
(`mongoAbort` after logging, or a fatal `invariant`), or — if no catch
clause had matched — an exception escaping to the caller. -/
inductive Outcome (α : Type)
  | ok (a : α)
  | aborted (tag : String)
  | uncaught (e : ExcKind)
deriving DecidableEq, Repr

/-- The classes named in the catch clauses of the wrappers. -/
inductive CatchClass
  | dbException
  | iosFailure
  | badAlloc
  | stdException
deriving DecidableEq, Repr

/-- C++ handler matching: `DBException`, `std::ios_base::failure` and
`std::bad_alloc` all derive from `std::exception`, so a
`catch (std::exception&)` clause catches each of them; the other clauses
catch exactly their own class. -/
def matchesCatch : ExcKind → CatchClass → Bool
  | ExcKind.dbException _, CatchClass.dbException => true
  | ExcKind.dbException _, CatchClass.stdException => true
  | ExcKind.iosFailure, CatchClass.iosFailure => true
  | ExcKind.iosFailure, CatchClass.stdException => true
  | ExcKind.badAlloc, CatchClass.badAlloc => true
  | ExcKind.badAlloc, CatchClass.stdException => true
  | ExcKind.stdException, CatchClass.stdException => true
  | _, _ => false

/-- Try the catch clauses in source order; each handler logs a diagnostic
and calls `mongoAbort` with its tag; if none matches the exception escapes. -/
def runCatches {α : Type} (cs : List (CatchClass × String)) (e : ExcKind) : Outcome α :=
  match cs with
  | [] => Outcome.uncaught e
  | (c, tag) :: rest => if matchesCatch e c then Outcome.aborted tag else runCatches rest e

/-- The catch clauses of `groupCommit`, in source order. -/
def gcCatches : List (CatchClass × String) :=
  [(CatchClass.dbException, "gc1"), (CatchClass.iosFailure, "gc2"),
   (CatchClass.badAlloc, "gc3"), (CatchClass.stdException, "gc4")]

/-- The catch clauses of `groupCommitWithLimitedLocks`, in source order. -/
def llCatches : List (CatchClass × String) :=
  [(CatchClass.dbException, "dur1"), (CatchClass.iosFailure, "dur2"),
   (CatchClass.badAlloc, "dur3"), (CatchClass.stdException, "dur4")]

/-- The `mongoAbort` tag each exception kind produces under the catch
clauses of `groupCommit`. -/
def gcAbortTag : ExcKind → String
  | ExcKind.dbException _ => "gc1"
  | ExcKind.iosFailure => "gc2"
  | ExcKind.badAlloc => "gc3"
  | ExcKind.stdException => "gc4"

/-- The `mongoAbort` tag each exception kind produces under the catch
clauses of `groupCommitWithLimitedLocks`. -/
def llAbortTag : ExcKind → String
  | ExcKind.dbException _ => "dur1"
  | ExcKind.iosFailure => "dur2"
  | ExcKind.badAlloc => "dur3"
  | ExcKind.stdException => "dur4"

/-- `groupCommit` (dur.cpp): the outermost wrapper of the full-lock entry
point; catches the four exception classes and aborts, and a fatal
`invariant` inside aborts the process directly. -/
def groupCommit (oracle : Oracle) (now : Nat) (alwaysRemap : Bool) (lgw : Bool) (st : St) :
    Outcome (List Ev × St) :=
  match _groupCommit oracle now alwaysRemap lgw st with
  | Except.ok a => Outcome.ok a
  | Except.error (Failure.exc e) => runCatches gcCatches e
  | Except.error (Failure.fatalAssert _) => Outcome.aborted "invariant"

/-- `groupCommitWithLimitedLocks` (dur.cpp): the outermost wrapper of the
limited-locks entry point. -/
def groupCommitWithLimitedLocks (oracle : Oracle) (st : St) :
    Outcome (List Ev × St × Bool) :=
  match _groupCommitWithLimitedLocks oracle st with
  | Except.ok a => Outcome.ok a
  | Except.error (Failure.exc e) => runCatches llCatches e
  | Except.error (Failure.fatalAssert _) => Outcome.aborted "invariant"

/-- Result of `DurableImpl::commitIfNeeded` as observed by the claims: the
returned Bool, whether `commitNow` (an inline commit) was performed, and
whether a shared global read lock was acquired on the way. -/
structure CIN where
  ret : Bool
  committed : Bool
  acquiredGlobalRead : Bool
deriving DecidableEq, Repr

/-- The caller's lock state as consulted by `_aCommitIsNeeded`:
`threadState()` plus `isAtLeastReadLocked` for the "local" and "admin"
databases. -/
structure LockerSt where
  threadState : TS
  localDbLocked : Bool
  adminDbLocked : Bool
deriving DecidableEq, Repr

/-- `DurableImpl::_aCommitIsNeeded` (dur.cpp): switch on `threadState()`.
`'\0'`: take `Lock::GlobalRead`, re-check the budget (`bytesAfterLock` is
the value observed after acquiring the lock; another thread may have
committed), return false if below, otherwise `commitNow`. `'w'`: decline if
the local or admin database is locked; otherwise try
`UpgradeGlobalLockToExclusive` and `commitNow` only if the upgrade
succeeded (returning true either way). `'W'`/`'R'`: `commitNow` inline.
`'r'`: decline. -/
def _aCommitIsNeeded (ls : LockerSt) (bytesAfterLock : Nat) (gotUpgrade : Bool) : CIN :=
  match ls.threadState with
  | TS.none =>
      if bytesAfterLock < UncommittedBytesLimit then ⟨false, false, true⟩
      else ⟨true, true, true⟩
  | TS.w =>
      if ls.localDbLocked then ⟨false, false, false⟩
      else if ls.adminDbLocked then ⟨false, false, false⟩
      else if gotUpgrade then ⟨true, true, false⟩
      else ⟨true, false, false⟩
  | TS.W => ⟨true, true, false⟩
  | TS.R => ⟨true, true, false⟩
  | TS.r => ⟨false, false, false⟩

/-- `DurableImpl::commitIfNeeded` (dur.cpp): return false immediately when
the buffered bytes are below `UncommittedBytesLimit` and `force` is not
set; otherwise defer to `_aCommitIsNeeded`. -/
def commitIfNeeded (ls : LockerSt) (bytes bytesAfterLock : Nat) (force gotUpgrade : Bool) :
    CIN :=
  if bytes < UncommittedBytesLimit ∧ force = false then ⟨false, false, false⟩
  else _aCommitIsNeeded ls bytesAfterLock gotUpgrade

/-- `durThreadGroupCommit` (dur.cpp): with `N = 10` and the static counter
`n`, attempt the limited-locks path only when `privateMapBytes` is below
the budget, `++n % N` is nonzero and `DurAlwaysRemap` is off; if that path
is taken and succeeds, return; otherwise run the full path (`GlobalWrite`,
downgrade, `groupCommit` with the lock handle, which performs a remap).
The `&&` chain short-circuits: `++n` executes only when `privateMapBytes`
is below the budget. Returns whether the full (remap) path ran, and the
new counter. -/
def durThreadGroupCommit (pmb : Nat) (alwaysRemap llOk : Bool) (n : Nat) : Bool × Nat :=
  if pmb < UncommittedBytesLimit then
    let n1 := n + 1
    if n1 % 10 ≠ 0 ∧ alwaysRemap = false then
      if llOk then (false, n1) else (true, n1)
    else (true, n1)
  else (true, n)

/-- Run `k` consecutive background commit cycles starting from counter `n`
and count how many took the full (remap) path. -/
def fullRemapCount (pmb : Nat) (alwaysRemap llOk : Bool) : Nat → Nat → Nat
  | _, 0 => 0
  | n, Nat.succ k =>
      let r := durThreadGroupCommit pmb alwaysRemap llOk n
      (if r.1 then 1 else 0) + fullRemapCount pmb alwaysRemap llOk r.2 k

/-- `durThread` (dur.cpp): the per-iteration sleep quantum — a third of the
commit interval, plus one so it is never zero; interval 0 means use the
default, 100 ms when journal and data files share a partition, else 30 ms. -/
def durThreadOneThird (ci : Nat) (samePartition : Bool) : Nat :=
  let ms := if ci = 0 then (if samePartition then 100 else 30) else ci
  ms / 3 + 1

/-- The early-wake condition checked between sleeps in `durThread`: a
`getLastError j:true` waiter is pending, or the buffered bytes exceed half
the forced-commit budget. -/
def durThreadWakeEarly (nWaiting bytes : Nat) : Bool :=
  decide (0 < nWaiting ∨ UncommittedBytesLimit / 2 < bytes)

/-- The sleeps performed by one `durThread` iteration: one mandatory third,
then up to two more, each skipped (with all that follow) once the
early-wake condition holds at that check point; `nWaiting i` and `bytes i`
are the values observed at the i-th check. -/
def durThreadSleeps (ci : Nat) (samePartition : Bool)
    (nWaiting bytes : Fin 2 → Nat) : List Nat :=
  let t := durThreadOneThird ci samePartition
  t :: (if durThreadWakeEarly (nWaiting 0) (bytes 0) then []
        else t :: (if durThreadWakeEarly (nWaiting 1) (bytes 1) then [] else [t]))

/-- Which implementation `DurableInterface::_impl` points at. -/
inductive Impl
  | durable
  | nonDurable
deriving DecidableEq, Repr

/-- The state consulted by `enableDurability` / `disableDurability`: the
installed implementation and `commitJob.hasWritten()`. -/
structure IfaceSt where
  impl : Impl
  hasWritten : Bool
deriving DecidableEq, Repr

/-- `DurableInterface::disableDurability` (dur.cpp): `verify` that the
durable implementation is installed, `massert(13616, ...)` that no writes
are pending, then install the non-durable implementation. A thrown
assertion leaves the state unchanged (the assignment is never reached). -/
def disableDurability (s : IfaceSt) : IfaceSt × Option ExcKind :=
  if s.impl ≠ Impl.durable then (s, Option.some (ExcKind.dbException 0))
  else if s.hasWritten then (s, Option.some (ExcKind.dbException 13616))
  else ({ s with impl := Impl.nonDurable }, Option.none)

/-- `DurableInterface::enableDurability` (dur.cpp): `verify` that the
non-durable implementation is installed, then install the durable one. -/
def enableDurability (s : IfaceSt) : IfaceSt × Option ExcKind :=
  if s.impl ≠ Impl.nonDurable then (s, Option.some (ExcKind.dbException 0))
  else ({ s with impl := Impl.durable }, Option.none)

/-- `a` occurs in `tr` strictly before `b`. -/
def seqBefore (tr : List Ev) (a b : Ev) : Prop :=
  a ∈ tr ∧ b ∈ tr ∧ tr.indexOf a < tr.indexOf b

instance (tr : List Ev) (a b : Ev) : Decidable (seqBefore tr a b) := by
  unfold seqBefore; infer_instance

/-- The event trace of a commit cycle with buffered intents on the
limited-locks path. -/
def llTraceWritten : List Ev :=
  [Ev.commitingBegin, Ev.prepLogBuffer, Ev.committingReset, Ev.releaseGlobalRead,
   Ev.writeToJournal, Ev.notifyCommitted, Ev.writeToDataFiles]

/-- The event trace of the mutex-protected block of `_groupCommit` when
intents are buffered. -/
def gcMainTraceWritten : List Ev :=
  [Ev.commitingBegin, Ev.prepLogBuffer, Ev.writeToJournal, Ev.notifyCommitted,
   Ev.writeToDataFiles, Ev.committingReset]

/-! ## Helper lemmas -/

theorem remapBody_preserves (now : Nat) (ar : Bool) (st : St) :
    (remapBody now ar st).notifiedEpoch = st.notifiedEpoch ∧
    (remapBody now ar st).commitEpoch = st.commitEpoch ∧
    (remapBody now ar st).hasWritten = st.hasWritten := by
  unfold remapBody
  by_cases hsz : st.nFiles = 0 <;> simp [hsz]

theorem remap_trace (now : Nat) (ar : Bool) (st : St) (tr : List Ev) (st' : St)
    (h : _REMAPPRIVATEVIEW now ar st = Except.ok (tr, st')) :
    tr = [Ev.remapPrivateView] ∧ st' = remapBody now ar st := by
  unfold _REMAPPRIVATEVIEW at h
  split at h
  · simp at h
  · split at h
    · simp at h
    · simp at h
      exact ⟨h.1.symm, h.2.symm⟩

theorem remap_runs (now : Nat) (ar : Bool) (st : St)
    (h1 : isW st.lock = true) (h2 : st.hasWritten = false) :
    _REMAPPRIVATEVIEW now ar st =
      Except.ok ([Ev.remapPrivateView], remapBody now ar st) := by
  unfold _REMAPPRIVATEVIEW
  rw [h1, h2]
  simp

theorem gcll_written_trace (oracle : Oracle) (st : St) (tr : List Ev) (st' : St) (r : Bool)
    (hw : st.hasWritten = true)
    (h : _groupCommitWithLimitedLocks oracle st = Except.ok (tr, st', r)) :
    tr = llTraceWritten ∧ r = true := by
  unfold _groupCommitWithLimitedLocks at h
  split at h
  · simp at h
  · cases hp : oracle Prim.prepLogBuffer <;>
    cases hj : oracle Prim.writeToJournal <;>
    cases hd : oracle Prim.writeToDataFiles <;>
    simp [throwOr, hp, hj, hd, hw, commitingBegin, committingReset,
      committingNotifyCommitted, llTraceWritten] at h <;>
    exact ⟨h.1.symm, h.2.2⟩

theorem gcMain_written_trace (oracle : Oracle) (st : St) (tr : List Ev) (st' : St)
    (hw : st.hasWritten = true)
    (h : _groupCommitMain oracle st = Except.ok (tr, st')) :
    tr = gcMainTraceWritten ∧ st'.hasWritten = false := by
  unfold _groupCommitMain at h
  cases hp : oracle Prim.prepLogBuffer <;>
  cases hj : oracle Prim.writeToJournal <;>
  cases hd : oracle Prim.writeToDataFiles <;>
  simp [throwOr, hp, hj, hd, hw, committingReset, committingNotifyCommitted,
    gcMainTraceWritten] at h <;>
  exact ⟨h.1.symm, by rw [← h.2]⟩

theorem gcMain_error_exc (oracle : Oracle) (st : St) (f : Failure)
    (h : _groupCommitMain oracle st = Except.error f) : ∃ e, f = Failure.exc e := by
  unfold _groupCommitMain at h
  cases hp : oracle Prim.prepLogBuffer <;>
  cases hj : oracle Prim.writeToJournal <;>
  cases hd : oracle Prim.writeToDataFiles <;>
  by_cases hw : st.hasWritten = false <;>
  simp [throwOr, hp, hj, hd, hw, committingReset, committingNotifyCommitted] at h <;>
  exact ⟨_, h.symm⟩

theorem gc_written_trace (oracle : Oracle) (now : Nat) (ar : Bool) (lgw : Bool) (st : St)
    (tr : List Ev) (st' : St) (hw : st.hasWritten = true)
    (h : _groupCommit oracle now ar lgw st = Except.ok (tr, st')) :
    tr = gcMainTraceWritten ∨
    tr = gcMainTraceWritten ++ [Ev.upgradeToW, Ev.remapPrivateView] ∨
    tr = gcMainTraceWritten ++ [Ev.remapPrivateView] := by
  unfold _groupCommit at h
  split at h
  · simp at h
  · split at h
    · simp at h
    · rename_i trm stm heq
      have hmt := gcMain_written_trace oracle (commitingBegin st) trm stm
        (by simp [commitingBegin, hw]) heq
      split at h
      · simp at h
      · split at h
        · split at h
          · split at h
            · simp at h
            · rename_i tr2 str heq2
              simp only [Except.ok.injEq, Prod.mk.injEq] at h
              have ht2 := (remap_trace now ar _ tr2 str heq2).1
              rw [← h.1, hmt.1, ht2]
              right; left; rfl
          · simp only [Except.ok.injEq, Prod.mk.injEq] at h
            rw [← h.1, hmt.1]
            left; rfl
        · split at h
          · simp at h
          · rename_i tr2 str heq2
            simp only [Except.ok.injEq, Prod.mk.injEq] at h
            have ht2 := (remap_trace now ar _ tr2 str heq2).1
            rw [← h.1, hmt.1, ht2]
            right; right; rfl

/-- Is an `Except` result a normal return? -/
def exOk {α : Type} : Except Failure α → Bool
  | Except.ok _ => true
  | Except.error _ => false

/-- The state produced by the no-intents (no-op) branch of
`_groupCommitWithLimitedLocks`. -/
def llNoopResult (st : St) : St :=
  { committingNotifyCommitted (commitingBegin { st with lock := TS.R }) with lock := TS.none }

theorem gc_empty_result (oracle : Oracle) (now : Nat) (ar : Bool) (lgw : Bool) (st : St)
    (hw : st.hasWritten = false) (hl : isLockedForCommitting st.lock = true) :
    ∃ tr st', _groupCommit oracle now ar lgw st = Except.ok (tr, st') ∧
      (tr = [Ev.commitingBegin, Ev.notifyCommitted] ∨
       tr = [Ev.commitingBegin, Ev.notifyCommitted, Ev.upgradeToW, Ev.remapPrivateView] ∨
       tr = [Ev.commitingBegin, Ev.notifyCommitted, Ev.remapPrivateView]) ∧
      st'.notifiedEpoch = st.commitEpoch + 1 := by
  obtain ⟨lk, hwf, sby, sce, sne, sbl, spm, snf, ssa, slr, scw⟩ := st
  simp only at hw hl
  subst hw
  cases lk
  case r => simp [isLockedForCommitting] at hl
  case w => simp [isLockedForCommitting] at hl
  case none => simp [isLockedForCommitting] at hl
  case R =>
    by_cases hg : lgw
    · refine ⟨[Ev.commitingBegin, Ev.notifyCommitted, Ev.upgradeToW, Ev.remapPrivateView],
        remapBody now ar ⟨TS.W, false, sby, sce + 1, sce + 1, sbl, spm, snf, ssa, slr, scw⟩,
        ?_, Or.inr (Or.inl rfl), ?_⟩
      · unfold _groupCommit _groupCommitMain
        simp [isLockedForCommitting, commitingBegin, committingNotifyCommitted, isW,
          _REMAPPRIVATEVIEW, hg]
      · have := remapBody_preserves now ar
          ⟨TS.W, false, sby, sce + 1, sce + 1, sbl, spm, snf, ssa, slr, scw⟩
        rw [this.1]
    · refine ⟨[Ev.commitingBegin, Ev.notifyCommitted],
        ⟨TS.R, false, sby, sce + 1, sce + 1, sbl, spm, snf, ssa, slr, scw⟩,
        ?_, Or.inl rfl, rfl⟩
      unfold _groupCommit _groupCommitMain
      simp [isLockedForCommitting, commitingBegin, committingNotifyCommitted, isW, hg]
  case W =>
    refine ⟨[Ev.commitingBegin, Ev.notifyCommitted, Ev.remapPrivateView],
      remapBody now ar ⟨TS.W, false, sby, sce + 1, sce + 1, sbl, spm, snf, ssa, slr, scw + 1⟩,
      ?_, Or.inr (Or.inr rfl), ?_⟩
    · unfold _groupCommit _groupCommitMain
      simp [isLockedForCommitting, commitingBegin, committingNotifyCommitted, isW,
        _REMAPPRIVATEVIEW]
    · have := remapBody_preserves now ar
        ⟨TS.W, false, sby, sce + 1, sce + 1, sbl, spm, snf, ssa, slr, scw + 1⟩
      rw [this.1]

/-! ## Concrete runs used as witnesses -/

/-- An unlocked caller state with one buffered intent of 300 bytes. -/
def stC1 : St := ⟨TS.none, true, 300, 0, 0, 0, 0, 1, 0, 0, 0⟩

/-- The state `stC1` reaches after a limited-locks commit cycle. -/
def stC1r : St := ⟨TS.none, false, 0, 1, 1, 0, 0, 1, 0, 0, 0⟩

/-- A caller in `'R'` (the durThread full path after downgrade) with one
buffered intent of 300 bytes. -/
def stC2 : St := ⟨TS.R, true, 300, 0, 0, 0, 0, 1, 0, 0, 0⟩

/-- The event trace of a full-lock cycle from `stC2` with the lock handle
set (upgrade and remap at the end). -/
def trC2 : List Ev := gcMainTraceWritten ++ [Ev.upgradeToW, Ev.remapPrivateView]

/-- The state `stC2` reaches after that cycle. -/
def stC2r : St := ⟨TS.W, false, 0, 1, 1, 0, 0, 1, 0, 0, 0⟩

/-- An unlocked caller state with no buffered intents. -/
def stC3 : St := ⟨TS.none, false, 0, 5, 2, 0, 0, 0, 0, 0, 0⟩

/-! ## Claims -/

/-- C1: for every commit cycle that begins with at least one buffered write
intent, on both the limited-locks path and the full-lock path, the waiter
acknowledgement `committingNotifyCommitted()` is invoked only after
`WRITETOJOURNAL` has completed and before `WRITETODATAFILES` begins, so
journal-acknowledgement waiters are never released before the section is
durable in the journal. -/
theorem notify_after_journal_before_datafiles (oracle : Oracle) (st : St)
    (hw : st.hasWritten = true) :
    (∀ tr st' r, _groupCommitWithLimitedLocks oracle st = Except.ok (tr, (st', r)) →
      seqBefore tr Ev.writeToJournal Ev.notifyCommitted ∧
      seqBefore tr Ev.notifyCommitted Ev.writeToDataFiles) ∧
    (∀ now ar lgw tr st', _groupCommit oracle now ar lgw st = Except.ok (tr, st') →
      seqBefore tr Ev.writeToJournal Ev.notifyCommitted ∧
      seqBefore tr Ev.notifyCommitted Ev.writeToDataFiles) := by
  constructor
  · intro tr st' r h
    rw [(gcll_written_trace oracle st tr st' r hw h).1]
    exact ⟨by decide, by decide⟩
  · intro now ar lgw tr st' h
    rcases gc_written_trace oracle now ar lgw st tr st' hw h with h3 | h3 | h3 <;>
      rw [h3] <;> exact ⟨by decide, by decide⟩

theorem notify_after_journal_before_datafiles_witness :
    seqBefore llTraceWritten Ev.writeToJournal Ev.notifyCommitted ∧
    seqBefore llTraceWritten Ev.notifyCommitted Ev.writeToDataFiles :=
  (notify_after_journal_before_datafiles benign stC1 (by decide)).1
    llTraceWritten stC1r true (by decide)

/-- C2 (counterexample): in the full-lock path with buffered intents,
`committingReset()` does not precede the journal write of the cycle — it
occurs after the data-file write — so the claim that the full-lock path
clears the intent buffer before its journal write fails on `_groupCommit`. -/
theorem full_lock_reset_before_journal_cx :
    _groupCommit benign 0 false true stC2 = Except.ok (trC2, stC2r) ∧
    Ev.committingReset ∈ trC2 ∧ Ev.writeToJournal ∈ trC2 ∧
    ¬ seqBefore trC2 Ev.committingReset Ev.writeToJournal := by decide

/-- C2 (amended): the full-lock path performs begin, prepare, journal
write, notification and data-file write in the same order as the
limited-locks path, but executes `committingReset()` after
`WRITETODATAFILES`, not before the journal write (foreground mutations are
excluded for the whole cycle by the `R`/`W` lock held). -/
theorem full_lock_step_order (oracle : Oracle) (now : Nat) (ar : Bool) (lgw : Bool)
    (st : St) (tr : List Ev) (st' : St) (hw : st.hasWritten = true)
    (h : _groupCommit oracle now ar lgw st = Except.ok (tr, st')) :
    seqBefore tr Ev.commitingBegin Ev.prepLogBuffer ∧
    seqBefore tr Ev.prepLogBuffer Ev.writeToJournal ∧
    seqBefore tr Ev.writeToJournal Ev.notifyCommitted ∧
    seqBefore tr Ev.notifyCommitted Ev.writeToDataFiles ∧
    seqBefore tr Ev.writeToDataFiles Ev.committingReset := by
  rcases gc_written_trace oracle now ar lgw st tr st' hw h with h3 | h3 | h3 <;>
    rw [h3] <;> exact ⟨by decide, by decide, by decide, by decide, by decide⟩

theorem full_lock_step_order_witness :
    seqBefore trC2 Ev.commitingBegin Ev.prepLogBuffer ∧
    seqBefore trC2 Ev.prepLogBuffer Ev.writeToJournal ∧
    seqBefore trC2 Ev.writeToJournal Ev.notifyCommitted ∧
    seqBefore trC2 Ev.notifyCommitted Ev.writeToDataFiles ∧
    seqBefore trC2 Ev.writeToDataFiles Ev.committingReset :=
  full_lock_step_order benign 0 false true stC2 trC2 stC2r (by decide) (by decide)

/-- C3: a commit cycle that begins with zero buffered intents calls
`committingNotifyCommitted()` and returns success without a journal write
or a data-file write, and the notification still satisfies any waiter: the
notified epoch is advanced past every epoch observable before the cycle. -/
theorem noop_commit_notifies (oracle : Oracle) (st : St) (hw : st.hasWritten = false) :
    (isLocked st.lock = false →
      _groupCommitWithLimitedLocks oracle st =
        Except.ok ([Ev.commitingBegin, Ev.notifyCommitted], (llNoopResult st, true)) ∧
      (llNoopResult st).notifiedEpoch = st.commitEpoch + 1) ∧
    (∀ now ar lgw, isLockedForCommitting st.lock = true →
      exOk (_groupCommit oracle now ar lgw st) = true) ∧
    (∀ now ar lgw tr st', _groupCommit oracle now ar lgw st = Except.ok (tr, st') →
      Ev.notifyCommitted ∈ tr ∧ Ev.writeToJournal ∉ tr ∧ Ev.writeToDataFiles ∉ tr ∧
      st'.notifiedEpoch = st.commitEpoch + 1) := by
  refine ⟨?_, ?_, ?_⟩
  · intro hl
    constructor
    · unfold _groupCommitWithLimitedLocks
      rw [hl]
      simp [commitingBegin, committingNotifyCommitted, llNoopResult, hw]
    · simp [llNoopResult, committingNotifyCommitted, commitingBegin]
  · intro now ar lgw hl
    obtain ⟨tr, st', heq, -, -⟩ := gc_empty_result oracle now ar lgw st hw hl
    rw [heq]
    rfl
  · intro now ar lgw tr st' h
    by_cases hl : isLockedForCommitting st.lock = true
    · obtain ⟨trL, stL, heq, htr, hne⟩ := gc_empty_result oracle now ar lgw st hw hl
      rw [h] at heq
      simp only [Except.ok.injEq, Prod.mk.injEq] at heq
      obtain ⟨htr', hst'⟩ := heq
      subst htr'
      subst hst'
      rcases htr with h3 | h3 | h3 <;> rw [h3] <;>
        exact ⟨by decide, by decide, by decide, hne⟩
    · exfalso
      simp only [Bool.not_eq_true] at hl
      unfold _groupCommit at h
      rw [hl] at h
      simp at h

theorem noop_commit_notifies_witness :
    _groupCommitWithLimitedLocks benign stC3 =
      Except.ok ([Ev.commitingBegin, Ev.notifyCommitted], (llNoopResult stC3, true)) ∧
    (llNoopResult stC3).notifiedEpoch = stC3.commitEpoch + 1 :=
  (noop_commit_notifies benign stC3 (by decide)).1 (by decide)

theorem gc_error_shape (oracle : Oracle) (now : Nat) (ar : Bool) (lgw : Bool) (st : St)
    (f : Failure) (h : _groupCommit oracle now ar lgw st = Except.error f) :
    f = Failure.fatalAssert AssertId.gcNotLockedForCommitting ∨ ∃ e, f = Failure.exc e := by
  unfold _groupCommit at h
  split at h
  · simp at h
    left
    exact h.symm
  · split at h
    · rename_i f' heq
      simp at h
      subst h
      exact Or.inr (gcMain_error_exc oracle (commitingBegin st) _ heq)
    · rename_i trm stm heq
      split at h
      · simp at h
        right
        exact ⟨_, h.symm⟩
      · rename_i hns
        split at h
        · split at h
          · split at h
            · rename_i f' heq2
              have hrr := remap_runs now ar { stm with lock := TS.W }
                (by simp [isW]) (by simpa using hns)
              rw [hrr] at heq2
              simp at heq2
            · simp at h
          · simp at h
        · rename_i hiw
          split at h
          · rename_i f' heq2
            have hrr := remap_runs now ar
              { stm with commitsInWriteLock := stm.commitsInWriteLock + 1 }
              (by simpa using hiw) (by simpa using hns)
            rw [hrr] at heq2
            simp at heq2
          · simp at h

/-- C4: the private-view remap never executes unless its two asserted
preconditions hold — `_REMAPPRIVATEVIEW` checks `isW` and `!hasWritten`
before doing anything — and on every path of `_groupCommit` that reaches
the remap the two `invariant`s are valid: no run of `_groupCommit`, from
any state and under any exception behaviour of the phase primitives, fails
with either remap assertion. -/
theorem remap_preconditions_never_trip (oracle : Oracle) (now : Nat) (ar : Bool)
    (lgw : Bool) (st : St) :
    _groupCommit oracle now ar lgw st ≠
      Except.error (Failure.fatalAssert AssertId.remapNotW) ∧
    _groupCommit oracle now ar lgw st ≠
      Except.error (Failure.fatalAssert AssertId.remapHasWritten) := by
  constructor <;>
  · intro h
    rcases gc_error_shape oracle now ar lgw st _ h with h' | ⟨e, h'⟩ <;> simp at h'

theorem groupCommit_eq (oracle : Oracle) (now : Nat) (ar : Bool) (lgw : Bool) (st : St) :
    groupCommit oracle now ar lgw st =
      match _groupCommit oracle now ar lgw st with
      | Except.ok a => Outcome.ok a
      | Except.error (Failure.exc e) => Outcome.aborted (gcAbortTag e)
      | Except.error (Failure.fatalAssert _) => Outcome.aborted "invariant" := by
  unfold groupCommit
  cases _groupCommit oracle now ar lgw st with
  | ok a => rfl
  | error f =>
    cases f with
    | exc e => cases e <;> rfl
    | fatalAssert a => rfl

theorem groupCommitLL_eq (oracle : Oracle) (st : St) :
    groupCommitWithLimitedLocks oracle st =
      match _groupCommitWithLimitedLocks oracle st with
      | Except.ok a => Outcome.ok a
      | Except.error (Failure.exc e) => Outcome.aborted (llAbortTag e)
      | Except.error (Failure.fatalAssert _) => Outcome.aborted "invariant" := by
  unfold groupCommitWithLimitedLocks
  cases _groupCommitWithLimitedLocks oracle st with
  | ok a => rfl
  | error f =>
    cases f with
    | exc e => cases e <;> rfl
    | fatalAssert a => rfl

/-- C5: every exception raised inside a commit cycle, whichever entry
point was used and whichever phase primitive threw, is caught by the
outermost wrapper of that entry point, which logs a diagnostic and aborts
the process with the tag of the matching catch clause; no exception
outcome escapes either wrapper to its caller, and after an internal
failure the cycle never continues to a normal return. -/
theorem commit_cycle_failures_abort (oracle : Oracle) (now : Nat) (ar : Bool)
    (lgw : Bool) (st : St) :
    (∀ e, groupCommit oracle now ar lgw st ≠ Outcome.uncaught e) ∧
    (∀ e, groupCommitWithLimitedLocks oracle st ≠ Outcome.uncaught e) ∧
    (∀ e, _groupCommit oracle now ar lgw st = Except.error (Failure.exc e) →
      groupCommit oracle now ar lgw st = Outcome.aborted (gcAbortTag e)) ∧
    (∀ e, _groupCommitWithLimitedLocks oracle st = Except.error (Failure.exc e) →
      groupCommitWithLimitedLocks oracle st = Outcome.aborted (llAbortTag e)) ∧
    (∀ f a, _groupCommit oracle now ar lgw st = Except.error f →
      groupCommit oracle now ar lgw st ≠ Outcome.ok a) ∧
    (∀ f a, _groupCommitWithLimitedLocks oracle st = Except.error f →
      groupCommitWithLimitedLocks oracle st ≠ Outcome.ok a) := by
  refine ⟨?_, ?_, ?_, ?_, ?_, ?_⟩
  · intro e
    rw [groupCommit_eq]
    cases hm : _groupCommit oracle now ar lgw st with
    | ok a => simp
    | error f => cases f <;> simp
  · intro e
    rw [groupCommitLL_eq]
    cases hm : _groupCommitWithLimitedLocks oracle st with
    | ok a => simp
    | error f => cases f <;> simp
  · intro e h
    rw [groupCommit_eq, h]
  · intro e h
    rw [groupCommitLL_eq, h]
  · intro f a h
    rw [groupCommit_eq, h]
    cases f <;> simp
  · intro f a h
    rw [groupCommitLL_eq, h]
    cases f <;> simp

/-- An oracle whose journal write throws `std::ios_base::failure`. -/
def oracleJournalIos : Oracle := fun p =>
  if p = Prim.writeToJournal then Option.some ExcKind.iosFailure else Option.none

theorem commit_cycle_failures_abort_witness :
    groupCommit oracleJournalIos 0 false true stC2 =
      Outcome.aborted (gcAbortTag ExcKind.iosFailure) :=
  (commit_cycle_failures_abort oracleJournalIos 0 false true stC2).2.2.1
    ExcKind.iosFailure (by decide)

/-- C6: `commitIfNeeded` returns false without committing whenever the
buffered bytes are below the budget and `force` is not set; otherwise the
behaviour is the lock-state decision table of `_aCommitIsNeeded`:
unlocked — acquire a shared global read lock, re-check the budget and
commit only if it is still met; `'w'` — decline when the local or admin
database is locked, otherwise commit inline exactly when the upgrade to
exclusive succeeds; `'W'`/`'R'` — commit inline immediately; `'r'` —
decline. -/
theorem commitIfNeeded_policy (ls : LockerSt) (bytes bytesAfterLock : Nat)
    (force gotUpgrade : Bool) :
    (bytes < UncommittedBytesLimit → force = false →
      commitIfNeeded ls bytes bytesAfterLock force gotUpgrade = ⟨false, false, false⟩) ∧
    (¬ (bytes < UncommittedBytesLimit ∧ force = false) →
      (ls.threadState = TS.none →
        (commitIfNeeded ls bytes bytesAfterLock force gotUpgrade).acquiredGlobalRead = true ∧
        ((commitIfNeeded ls bytes bytesAfterLock force gotUpgrade).committed = true ↔
          ¬ bytesAfterLock < UncommittedBytesLimit) ∧
        (bytesAfterLock < UncommittedBytesLimit →
          commitIfNeeded ls bytes bytesAfterLock force gotUpgrade = ⟨false, false, true⟩)) ∧
      (ls.threadState = TS.w →
        ((ls.localDbLocked = true ∨ ls.adminDbLocked = true) →
          (commitIfNeeded ls bytes bytesAfterLock force gotUpgrade).committed = false ∧
          (commitIfNeeded ls bytes bytesAfterLock force gotUpgrade).ret = false) ∧
        (ls.localDbLocked = false → ls.adminDbLocked = false →
          ((commitIfNeeded ls bytes bytesAfterLock force gotUpgrade).committed = true ↔
            gotUpgrade = true))) ∧
      ((ls.threadState = TS.W ∨ ls.threadState = TS.R) →
        commitIfNeeded ls bytes bytesAfterLock force gotUpgrade = ⟨true, true, false⟩) ∧
      (ls.threadState = TS.r →
        commitIfNeeded ls bytes bytesAfterLock force gotUpgrade = ⟨false, false, false⟩)) := by
  constructor
  · intro h1 h2
    unfold commitIfNeeded
    rw [if_pos ⟨h1, h2⟩]
  · intro hno
    unfold commitIfNeeded
    rw [if_neg hno]
    unfold _aCommitIsNeeded
    refine ⟨?_, ?_, ?_, ?_⟩
    · intro hts
      rw [hts]
      by_cases hb : bytesAfterLock < UncommittedBytesLimit <;> simp [hb]
    · intro hts
      rw [hts]
      constructor
      · intro hd
        rcases hd with hd | hd
        · simp [hd]
        · by_cases hll : ls.localDbLocked <;> simp [hll, hd]
      · intro h3 h4
        rw [h3, h4]
        cases gotUpgrade <;> simp
    · intro hts
      rcases hts with hts | hts <;> rw [hts]
    · intro hts
      rw [hts]

theorem commitIfNeeded_policy_witness :
    commitIfNeeded ⟨TS.W, false, false⟩ UncommittedBytesLimit 0 false false =
      ⟨true, true, false⟩ :=
  ((commitIfNeeded_policy ⟨TS.W, false, false⟩ UncommittedBytesLimit 0 false false).2
    (by simp)).2.2.1 (Or.inl rfl)

theorem durThreadGroupCommit_under (pmb : Nat) (hp : pmb < UncommittedBytesLimit)
    (n : Nat) :
    durThreadGroupCommit pmb false true n = (decide ((n + 1) % 10 = 0), n + 1) := by
  unfold durThreadGroupCommit
  rw [if_pos hp]
  by_cases hz : (n + 1) % 10 = 0 <;> simp [hz]

theorem fullRemapCount_succ (pmb : Nat) (ar llOk : Bool) (n k : Nat) :
    fullRemapCount pmb ar llOk n (k + 1) =
      (if (durThreadGroupCommit pmb ar llOk n).1 then 1 else 0) +
        fullRemapCount pmb ar llOk (durThreadGroupCommit pmb ar llOk n).2 k := rfl

theorem fullRemapCount_congr (pmb qmb : Nat) (hp : pmb < UncommittedBytesLimit)
    (hq : qmb < UncommittedBytesLimit) :
    ∀ k m n, m % 10 = n % 10 →
      fullRemapCount pmb false true m k = fullRemapCount qmb false true n k := by
  intro k
  induction k with
  | zero => intro m n _; rfl
  | succ k ih =>
    intro m n h
    rw [fullRemapCount_succ, fullRemapCount_succ, durThreadGroupCommit_under pmb hp m,
      durThreadGroupCommit_under qmb hq n]
    have h1 : (m + 1) % 10 = (n + 1) % 10 := by omega
    rw [h1]
    simp only
    rw [ih (m + 1) (n + 1) (by omega)]

theorem fullRemapCount_20 (pmb n : Nat) (hp : pmb < UncommittedBytesLimit) :
    fullRemapCount pmb false true n 20 = 2 := by
  have h0 : (0 : Nat) < UncommittedBytesLimit := by norm_num [UncommittedBytesLimit]
  rw [fullRemapCount_congr pmb 0 hp h0 20 n (n % 10) (by omega)]
  have hlt : n % 10 < 10 := by omega
  have hall : ∀ m, m < 10 → fullRemapCount 0 false true m 20 = 2 := by decide
  exact hall (n % 10) hlt

/-- C7: the background thread runs the full-lock path (which performs the
private-view remap) exactly when the incremented static counter is a
multiple of N = 10, or `privateMapBytes` has reached the budget, or
`DurAlwaysRemap` is set, or the limited-locks attempt failed — otherwise it
runs the limited-locks (no-remap) path; consequently any 20 consecutive
background commit cycles (budget not reached, limited-locks succeeding)
contain exactly 2 full remap cycles. -/
theorem remap_cadence (pmb : Nat) (ar llOk : Bool) (n : Nat) :
    ((durThreadGroupCommit pmb ar llOk n).1 = true ↔
      (¬ pmb < UncommittedBytesLimit ∨ (n + 1) % 10 = 0 ∨ ar = true ∨ llOk = false)) ∧
    (pmb < UncommittedBytesLimit → (durThreadGroupCommit pmb ar llOk n).2 = n + 1) ∧
    (pmb < UncommittedBytesLimit → fullRemapCount pmb false true n 20 = 2) := by
  refine ⟨?_, ?_, fullRemapCount_20 pmb n⟩
  · unfold durThreadGroupCommit
    by_cases h1 : pmb < UncommittedBytesLimit
    · by_cases h2 : (n + 1) % 10 = 0
      · simp [h1, h2]
      · cases ar <;> cases llOk <;> simp [h1, h2]
    · simp [h1]
  · intro h1
    unfold durThreadGroupCommit
    rw [if_pos h1]
    by_cases hc : (n + 1) % 10 ≠ 0 ∧ ar = false
    · rw [if_pos hc]
      cases llOk <;> rfl
    · rw [if_neg hc]

theorem remap_cadence_witness : fullRemapCount 0 false true 0 20 = 2 :=
  (remap_cadence 0 false true 0).2.2 (by norm_num [UncommittedBytesLimit])

/-- The all-zero observation functions for the durThread sleep model. -/
def zeroFn : Fin 2 → Nat := fun _ => 0

/-- C8: each durThread iteration sleeps in thirds of the configured commit
interval — every sleep is `ms/3 + 1` milliseconds where `ms` defaults to
100 (journal on the same partition as the data files) or 30 (different
partitions) when the configured interval is 0 — and the remaining thirds
are skipped, committing early, as soon as a journal-acknowledgement waiter
is pending or the buffered bytes exceed half the forced-commit budget. -/
theorem durThread_sleep_policy (ci : Nat) (sp : Bool) (nw b : Fin 2 → Nat) :
    (∀ x ∈ durThreadSleeps ci sp nw b, x = durThreadOneThird ci sp) ∧
    (ci = 0 → sp = true → durThreadOneThird ci sp = 100 / 3 + 1) ∧
    (ci = 0 → sp = false → durThreadOneThird ci sp = 30 / 3 + 1) ∧
    (ci ≠ 0 → durThreadOneThird ci sp = ci / 3 + 1) ∧
    (durThreadWakeEarly (nw 0) (b 0) = true →
      durThreadSleeps ci sp nw b = [durThreadOneThird ci sp]) ∧
    (durThreadWakeEarly (nw 0) (b 0) = false →
      durThreadWakeEarly (nw 1) (b 1) = true →
      durThreadSleeps ci sp nw b = [durThreadOneThird ci sp, durThreadOneThird ci sp]) ∧
    (durThreadWakeEarly (nw 0) (b 0) = false →
      durThreadWakeEarly (nw 1) (b 1) = false →
      durThreadSleeps ci sp nw b =
        [durThreadOneThird ci sp, durThreadOneThird ci sp, durThreadOneThird ci sp]) ∧
    (∀ i, durThreadWakeEarly (nw i) (b i) = true ↔
      (0 < nw i ∨ UncommittedBytesLimit / 2 < b i)) := by
  refine ⟨?_, ?_, ?_, ?_, ?_, ?_, ?_, ?_⟩
  · intro x hx
    unfold durThreadSleeps at hx
    by_cases h0 : durThreadWakeEarly (nw 0) (b 0) <;>
      by_cases h1 : durThreadWakeEarly (nw 1) (b 1) <;>
      simp [h0, h1] at hx <;> simp [hx]
  · intro h1 h2
    rw [h1, h2]
    decide
  · intro h1 h2
    rw [h1, h2]
    decide
  · intro h1
    unfold durThreadOneThird
    rw [if_neg h1]
  · intro h0
    unfold durThreadSleeps
    rw [h0]
    rfl
  · intro h0 h1
    unfold durThreadSleeps
    rw [h0, h1]
    rfl
  · intro h0 h1
    unfold durThreadSleeps
    rw [h0, h1]
    rfl
  · intro i
    unfold durThreadWakeEarly
    simp

theorem durThread_sleep_policy_witness :
    durThreadSleeps 0 true zeroFn zeroFn =
      [durThreadOneThird 0 true, durThreadOneThird 0 true, durThreadOneThird 0 true] :=
  (durThread_sleep_policy 0 true zeroFn zeroFn).2.2.2.2.2.2.1 (by decide) (by decide)

/-- State for the C9 counterexample: exclusive lock, nothing buffered, a
nonzero `privateMapBytes` of 5, and zero mapped files. -/
def stC9 : St := ⟨TS.W, false, 0, 0, 0, 0, 5, 0, 0, 0, 0⟩

/-- C9 (counterexample): with zero currently mapped files the remap sweep
returns early without touching `privateMapBytes`, so the counter is not
reset to zero "regardless of the number of currently mapped files". -/
theorem remap_pmb_zero_files_cx :
    _REMAPPRIVATEVIEW 7 false stC9 =
      Except.ok ([Ev.remapPrivateView], { stC9 with lastRemap := 7 }) ∧
    ({ stC9 with lastRemap := 7 } : St).privateMapBytes ≠ 0 := by decide

/-- C9 (amended): after every invocation of the remap sweep with at least
one currently mapped file, `privateMapBytes` equals zero; with zero mapped
files the sweep returns early and leaves the counter unchanged. -/
theorem remap_resets_pmb (now : Nat) (ar : Bool) (st : St)
    (h2 : st.hasWritten = false) (h1 : isW st.lock = true) :
    _REMAPPRIVATEVIEW now ar st =
      Except.ok ([Ev.remapPrivateView], remapBody now ar st) ∧
    (0 < st.nFiles → (remapBody now ar st).privateMapBytes = 0) ∧
    (st.nFiles = 0 → (remapBody now ar st).privateMapBytes = st.privateMapBytes) := by
  refine ⟨remap_runs now ar st h1 h2, ?_, ?_⟩
  · intro h
    unfold remapBody
    have hne : ¬ (st.nFiles = 0) := by omega
    simp [hne]
  · intro h
    unfold remapBody
    simp [h]

/-- State for the C9 amended-claim witness: one mapped file. -/
def stC9b : St := ⟨TS.W, false, 0, 0, 0, 0, 5, 1, 0, 0, 0⟩

theorem remap_resets_pmb_witness :
    _REMAPPRIVATEVIEW 7 false stC9b =
      Except.ok ([Ev.remapPrivateView], remapBody 7 false stC9b) ∧
    (0 < stC9b.nFiles → (remapBody 7 false stC9b).privateMapBytes = 0) ∧
    (stC9b.nFiles = 0 → (remapBody 7 false stC9b).privateMapBytes = stC9b.privateMapBytes) :=
  remap_resets_pmb 7 false stC9b (by decide) (by decide)

/-- C10: `disableDurability` requires the durable implementation to be
installed (`verify`), fails with `massert` code 13616 and leaves the
durable implementation installed whenever write intents are buffered, and
installs the non-durable implementation exactly when the intent buffer is
empty; `enableDurability` requires the non-durable implementation to be
installed. -/
theorem disableDurability_policy (s : IfaceSt) :
    (s.impl = Impl.durable → s.hasWritten = true →
      disableDurability s = (s, Option.some (ExcKind.dbException 13616))) ∧
    (s.impl = Impl.durable → s.hasWritten = false →
      disableDurability s = ({ s with impl := Impl.nonDurable }, Option.none)) ∧
    (s.impl ≠ Impl.durable →
      disableDurability s = (s, Option.some (ExcKind.dbException 0))) ∧
    (s.impl ≠ Impl.nonDurable →
      enableDurability s = (s, Option.some (ExcKind.dbException 0))) ∧
    (s.impl = Impl.nonDurable →
      enableDurability s = ({ s with impl := Impl.durable }, Option.none)) := by
  obtain ⟨imp, hwv⟩ := s
  cases imp <;> cases hwv <;> simp [disableDurability, enableDurability]

theorem disableDurability_policy_witness :
    disableDurability ⟨Impl.durable, true⟩ =
      (⟨Impl.durable, true⟩, Option.some (ExcKind.dbException 13616)) :=
  (disableDurability_policy ⟨Impl.durable, true⟩).1 rfl rfl

end Dur
